import Mathlib

/-!
Shallow embedding of the natal-chart engine in `src/main.py` of the
`jiankunhan-tw/bazi` repository, together with theorems settling the frozen
claims about its specification.

Numbers that the Python code holds in `float` variables are embedded as
rationals (`ℚ`); the transcendental library calls (`math.sin`, `math.cos`,
`math.tan`, `math.atan`, `math.sqrt` and the constant `math.pi`) are
abstracted into an explicit oracle structure, so that every theorem proved
over all oracles holds in particular for the floating-point functions.
Python strings are embedded as `List Char` (ASCII-faithful).
-/

namespace Bazi

/-- Python `%` on floats/ints with a positive divisor:
`a % b = a - b * floor (a / b)` (result has the sign of the divisor). -/
def pymod (a b : ℚ) : ℚ := a - b * (⌊a / b⌋ : ℤ)

/-- Python `int()` applied to a real value: truncation toward zero. -/
def pytrunc (q : ℚ) : ℤ := if 0 ≤ q then ⌊q⌋ else -⌊-q⌋

/-- Python round-half-to-even of a rational to an integer
(the tie-breaking rule of built-in `round`). -/
def roundHalfEven (q : ℚ) : ℤ :=
  if q - ⌊q⌋ < 1/2 then ⌊q⌋
  else if 1/2 < q - ⌊q⌋ then ⌊q⌋ + 1
  else if ⌊q⌋ % 2 = 0 then ⌊q⌋ else ⌊q⌋ + 1

/-- Python `round(x, n)` for `n` decimal digits. -/
def pyround (q : ℚ) (n : ℕ) : ℚ := (roundHalfEven (q * 10 ^ n) : ℚ) / 10 ^ n

theorem pymod_nonneg (a : ℚ) {b : ℚ} (hb : 0 < b) : 0 ≤ pymod a b := by
  unfold pymod
  have h := Int.floor_le (a / b)
  have : (⌊a / b⌋ : ℚ) * b ≤ (a / b) * b := by
    exact mul_le_mul_of_nonneg_right h (le_of_lt hb)
  rw [div_mul_cancel₀ a (ne_of_gt hb)] at this
  linarith [this]

theorem pymod_lt (a : ℚ) {b : ℚ} (hb : 0 < b) : pymod a b < b := by
  unfold pymod
  have h := Int.lt_floor_add_one (a / b)
  have : (a / b) * b < ((⌊a / b⌋ : ℚ) + 1) * b := by
    exact mul_lt_mul_of_pos_right h hb
  rw [div_mul_cancel₀ a (ne_of_gt hb)] at this
  linarith [this]

theorem pymod_eq_self {a b : ℚ} (hb : 0 < b) (h0 : 0 ≤ a) (h1 : a < b) :
    pymod a b = a := by
  unfold pymod
  have hfloor : ⌊a / b⌋ = 0 := by
    rw [Int.floor_eq_iff]
    constructor
    · exact_mod_cast div_nonneg h0 (le_of_lt hb)
    · push_cast
      rw [zero_add, div_lt_one hb]
      exact h1
  rw [hfloor]
  push_cast
  ring

theorem pymod_eq_add_self {a b : ℚ} (hb : 0 < b) (h0 : -b ≤ a) (h1 : a < 0) :
    pymod a b = a + b := by
  unfold pymod
  have hfloor : ⌊a / b⌋ = -1 := by
    rw [Int.floor_eq_iff]
    constructor
    · push_cast
      rw [neg_le, ← neg_div]
      exact (div_le_one hb).mpr (by linarith)
    · push_cast
      rw [neg_add_cancel]
      exact div_neg_of_neg_of_pos h1 hb
  rw [hfloor]
  push_cast
  ring

/-- The `SIGN_NAMES` dictionary of `src/main.py` (keys 0–11);
`none` models a `KeyError` on `SIGN_NAMES[k]`. -/
def SIGN_NAMES (k : ℤ) : Option String :=
  if k = 0 then some "白羊座" else if k = 1 then some "金牛座"
  else if k = 2 then some "雙子座" else if k = 3 then some "巨蟹座"
  else if k = 4 then some "獅子座" else if k = 5 then some "處女座"
  else if k = 6 then some "天秤座" else if k = 7 then some "天蠍座"
  else if k = 8 then some "射手座" else if k = 9 then some "摩羯座"
  else if k = 10 then some "水瓶座" else if k = 11 then some "雙魚座"
  else none

/-- The `HOUSE_NAMES` dictionary of `src/main.py` (keys 1–12). -/
def HOUSE_NAMES (k : ℕ) : Option String :=
  if k = 1 then some "第一宮" else if k = 2 then some "第二宮"
  else if k = 3 then some "第三宮" else if k = 4 then some "第四宮"
  else if k = 5 then some "第五宮" else if k = 6 then some "第六宮"
  else if k = 7 then some "第七宮" else if k = 8 then some "第八宮"
  else if k = 9 then some "第九宮" else if k = 10 then some "第十宮"
  else if k = 11 then some "第十一宮" else if k = 12 then some "第十二宮"
  else none

/-- The `PLANET_NAMES` dictionary of `src/main.py` (keys 0–9 and 11). -/
def PLANET_NAMES (k : ℕ) : Option String :=
  if k = 0 then some "太陽" else if k = 1 then some "月亮"
  else if k = 2 then some "水星" else if k = 3 then some "金星"
  else if k = 4 then some "火星" else if k = 5 then some "木星"
  else if k = 6 then some "土星" else if k = 7 then some "天王星"
  else if k = 8 then some "海王星" else if k = 9 then some "冥王星"
  else if k = 11 then some "北交點" else none

/-- `PLANET_NAMES.get(planet_id, f"行星{planet_id}")` from the source. -/
def planetNameGet (k : ℕ) : String := (PLANET_NAMES k).getD ("行星" ++ toString k)

/-- `SIGN_NAMES.get(sign_num, f"星座{sign_num}")` from the source. -/
def signNameGet (k : ℤ) : String := (SIGN_NAMES k).getD ("星座" ++ toString k)

/-- `decimal_to_degrees_minutes` from `src/main.py` (lines 143–148):
`sign_degree = decimal_degrees % 30`, then integer degrees and minutes. -/
def decimal_to_degrees_minutes (decimal_degrees : ℚ) : ℤ × ℤ :=
  let sign_degree := pymod decimal_degrees 30
  let degrees := pytrunc sign_degree
  let minutes := pytrunc ((sign_degree - degrees) * 60)
  (degrees, minutes)

/-- Modelled from the spec: `format_degree_minute` is called five times in
`src/main.py` but defined nowhere under `src/`; the spec requires each output
entry to carry "a degree/minute string within the sign", and the source
supplies the (otherwise unused) helper `decimal_to_degrees_minutes` computing
exactly that pair, so the missing formatter is modelled as rendering it. -/
def format_degree_minute (x : ℚ) : String :=
  let dm := decimal_to_degrees_minutes x
  toString dm.1 ++ "度" ++ toString dm.2 ++ "分"

/-- One step of the `for house_num in range(1, 13)` loop of
`get_planet_house` (lines 301–311): interval test for house `hn`, using
cusp `hn-1` and cusp `next_house - 1`; a missing index (Python `IndexError`)
aborts to the `except` branch, which returns house 1. -/
def housesLoop (lo : ℚ) (houses : List ℚ) : List ℕ → ℕ
  | [] => 1
  | hn :: rest =>
    let nh := if hn < 12 then hn + 1 else 1
    match houses[hn - 1]?, houses[nh - 1]? with
    | some s, some e =>
      if s < e then
        if s ≤ lo ∧ lo < e then hn else housesLoop lo houses rest
      else
        if lo ≥ s ∨ lo < e then hn else housesLoop lo houses rest
    | _, _ => 1

/-- `get_planet_house` from `src/main.py` (lines 297–314): normalizes the
longitude with `% 360`, scans houses 1..12 for the first interval containing
it (with the wraparound test when the cusp pair decreases), and returns 1
when no house matches or an exception occurs. -/
def get_planet_house (planet_lon : ℚ) (houses : List ℚ) : ℕ :=
  housesLoop (pymod planet_lon 360) houses ((List.range 12).map (· + 1))

theorem housesLoop_mem_or_one (lo : ℚ) (houses : List ℚ) (l : List ℕ) :
    housesLoop lo houses l = 1 ∨ housesLoop lo houses l ∈ l := by
  induction l with
  | nil => left; rfl
  | cons hn rest ih =>
    unfold housesLoop
    cases hgs : houses[hn - 1]? with
    | none => left; simp [hgs]
    | some s =>
      cases hge : houses[(if hn < 12 then hn + 1 else 1) - 1]? with
      | none => left; simp [hgs, hge]
      | some e =>
        simp only [hgs, hge]
        by_cases hlt : s < e
        · by_cases hin : s ≤ lo ∧ lo < e
          · right; simp [hlt, hin]
          · simp only [hlt, if_true, hin, if_false]
            rcases ih with h1 | hm
            · left; exact h1
            · right; exact List.mem_cons_of_mem _ hm
        · by_cases hin : lo ≥ s ∨ lo < e
          · right; simp [hlt, hin]
          · simp only [hlt, if_false, hin]
            rcases ih with h1 | hm
            · left; exact h1
            · right; exact List.mem_cons_of_mem _ hm

/-- The house index returned by `get_planet_house` always lies in `[1, 12]`. -/
theorem get_planet_house_range (planet_lon : ℚ) (houses : List ℚ) :
    1 ≤ get_planet_house planet_lon houses ∧ get_planet_house planet_lon houses ≤ 12 := by
  unfold get_planet_house
  rcases housesLoop_mem_or_one (pymod planet_lon 360) houses
      ((List.range 12).map (· + 1)) with h | h
  · omega
  · simp only [List.mem_map, List.mem_range] at h
    obtain ⟨i, hi, hx⟩ := h
    omega

/-- `sign_num = int(longitude // 30)` from the source: Python float `//` is
`floor`, and `int` of the resulting integer-valued float is that integer. -/
def signIdx (L : ℚ) : ℤ := ⌊L / 30⌋

/-- `degree_in_sign = longitude % 30` (the quantity formatted by
`decimal_to_degrees_minutes`). -/
def degreeInSign (L : ℚ) : ℚ := pymod L 30

theorem signIdx_range {L : ℚ} (h0 : 0 ≤ L) (h1 : L < 360) :
    0 ≤ signIdx L ∧ signIdx L ≤ 11 := by
  unfold signIdx
  constructor
  · exact Int.floor_nonneg.mpr (by positivity)
  · have h2 : ⌊L / 30⌋ < 12 := by
      apply Int.floor_lt.mpr
      push_cast
      rw [div_lt_iff₀ (by norm_num : (0:ℚ) < 30)]
      linarith
    omega

theorem SIGN_NAMES_isSome {k : ℤ} (h0 : 0 ≤ k) (h1 : k ≤ 11) :
    (SIGN_NAMES k).isSome = true := by
  unfold SIGN_NAMES
  interval_cases k <;> rfl

theorem HOUSE_NAMES_isSome {k : ℕ} (h0 : 1 ≤ k) (h1 : k ≤ 12) :
    (HOUSE_NAMES k).isSome = true := by
  unfold HOUSE_NAMES
  interval_cases k <;> rfl

/-- One output record of a chart: the dict built per body in
`calculate_swiss_ephemeris_chart` / `create_advanced_fallback_chart`. -/
structure Entry where
  longitude : ℚ
  sign : ℤ
  sign_name : String
  house : ℕ
  house_name : String
  degree_format : String
  speed : ℚ
deriving Repr, DecidableEq

/-- One iteration of the result-formatting loop of
`create_advanced_fallback_chart` (lines 542–557): normalize with `% 360`,
classify sign (`SIGN_NAMES[sign_num]` raises on a missing key), house
(`HOUSE_NAMES[house_num]` raises on a missing key) and build the record;
every speed on this path is the literal `0.0`. -/
def formatEntry (houses : List ℚ) (name : String) (lon0 : ℚ) :
    Except String (String × Entry) :=
  let longitude := pymod lon0 360
  let sign_num := signIdx longitude
  match SIGN_NAMES sign_num with
  | none => .error "KeyError: SIGN_NAMES"
  | some sign_name =>
    let house_num := get_planet_house longitude houses
    match HOUSE_NAMES house_num with
    | none => .error "KeyError: HOUSE_NAMES"
    | some house_name =>
      .ok (name,
        { longitude := pyround longitude 2
          sign := sign_num
          sign_name := sign_name
          house := house_num
          house_name := house_name
          degree_format := format_degree_minute longitude
          speed := 0 })

/-- The whole formatting loop over `planet_positions.items()`; the first
exception aborts the chart (there is no per-entry `try` on this path). -/
def formatChart (positions : List (String × ℚ)) (houses : List ℚ) :
    Except String (List (String × Entry)) :=
  match positions with
  | [] => .ok []
  | (n, x) :: rest =>
    match formatEntry houses n x with
    | .error e => .error e
    | .ok p =>
      match formatChart rest houses with
      | .error e => .error e
      | .ok ps => .ok (p :: ps)

/-- Full record produced for one body by the fallback formatting loop. -/
def entryComplete (houses : List ℚ) (p : String × Entry) : Prop :=
  ∃ L : ℚ, 0 ≤ L ∧ L < 360 ∧
    p.2.longitude = pyround L 2 ∧
    p.2.sign = signIdx L ∧ 0 ≤ p.2.sign ∧ p.2.sign ≤ 11 ∧
    SIGN_NAMES p.2.sign = some p.2.sign_name ∧
    p.2.house = get_planet_house L houses ∧ 1 ≤ p.2.house ∧ p.2.house ≤ 12 ∧
    HOUSE_NAMES p.2.house = some p.2.house_name ∧
    p.2.degree_format = format_degree_minute L ∧
    p.2.speed = 0

theorem formatEntry_ok (houses : List ℚ) (n : String) (x : ℚ) :
    ∃ ent : Entry, formatEntry houses n x = .ok (n, ent) ∧
      entryComplete houses (n, ent) := by
  unfold formatEntry
  have hm0 : 0 ≤ pymod x 360 := pymod_nonneg x (by norm_num)
  have hm1 : pymod x 360 < 360 := pymod_lt x (by norm_num)
  obtain ⟨hs0, hs1⟩ := signIdx_range hm0 hm1
  obtain ⟨sn, hsn⟩ := Option.isSome_iff_exists.mp (SIGN_NAMES_isSome hs0 hs1)
  obtain ⟨hh0, hh1⟩ := get_planet_house_range (pymod x 360) houses
  obtain ⟨hn2, hhn⟩ := Option.isSome_iff_exists.mp (HOUSE_NAMES_isSome hh0 hh1)
  refine ⟨{ longitude := pyround (pymod x 360) 2
            sign := signIdx (pymod x 360)
            sign_name := sn
            house := get_planet_house (pymod x 360) houses
            house_name := hn2
            degree_format := format_degree_minute (pymod x 360)
            speed := 0 }, ?_, ?_⟩
  · simp only [hsn, hhn]
  · exact ⟨pymod x 360, hm0, hm1, rfl, rfl, hs0, hs1, hsn, rfl, hh0,
      hh1, hhn, rfl, rfl⟩

theorem formatChart_ok (positions : List (String × ℚ)) (houses : List ℚ) :
    ∃ es, formatChart positions houses = .ok es ∧
      es.map Prod.fst = positions.map Prod.fst ∧
      ∀ p ∈ es, entryComplete houses p := by
  induction positions with
  | nil => exact ⟨[], rfl, rfl, by simp⟩
  | cons hd rest ih =>
    obtain ⟨n, x⟩ := hd
    obtain ⟨ent, hent, hprop⟩ := formatEntry_ok houses n x
    obtain ⟨es, hes, hmap, hall⟩ := ih
    refine ⟨(n, ent) :: es, ?_, ?_, ?_⟩
    · unfold formatChart
      rw [hent, hes]
    · simp [hmap]
    · intro p hp
      rcases List.mem_cons.mp hp with h | h
      · exact h ▸ hprop
      · exact hall p h

/-- Oracle for the `math` library calls used by the fallback path.  The
Python code evaluates `math.sin`, `math.cos`, `math.tan`, `math.atan`,
`math.sqrt` and the constant `math.pi` on floats; a float is a rational, so
the embedding abstracts them as arbitrary rational functions, and the
theorems below hold for every oracle, in particular the floating-point one. -/
structure TrigOracle where
  sin : ℚ → ℚ
  cos : ℚ → ℚ
  tan : ℚ → ℚ
  atan : ℚ → ℚ
  sqrt : ℚ → ℚ
  pi : ℚ

/-- `math.radians(x) = x * (pi / 180)`. -/
def radiansO (O : TrigOracle) (x : ℚ) : ℚ := x * (O.pi / 180)

/-- `math.degrees(x) = x * (180 / pi)`. -/
def degreesO (O : TrigOracle) (x : ℚ) : ℚ := x * (180 / O.pi)

/-- `if not (1 <= month <= 12): month = 1` (lines 426–427). -/
def clampMonth (m : ℤ) : ℤ := if 1 ≤ m ∧ m ≤ 12 then m else 1

/-- `if not (1 <= day <= 31): day = 1` (lines 428–429). -/
def clampDay (d : ℤ) : ℤ := if 1 ≤ d ∧ d ≤ 31 then d else 1

/-- `if not (0 <= hour <= 23): hour = 12` (lines 430–431). -/
def clampHour (h : ℤ) : ℤ := if 0 ≤ h ∧ h ≤ 23 then h else 12

/-- `if not (0 <= minute <= 59): minute = 0` (lines 432–433). -/
def clampMinute (mi : ℤ) : ℤ := if 0 ≤ mi ∧ mi ≤ 59 then mi else 0

/-- The Julian-day computation of `create_advanced_fallback_chart`
(lines 436–443): month ≤ 2 shifts into the previous year, century
correction `B`, then the fractional day. `//` on Python ints is floor
division (`Int.fdiv`) and `int()` truncates toward zero (`pytrunc`). -/
def julianDay (year month day hour minute : ℤ) : ℚ :=
  let ym := if month ≤ 2 then (year - 1, month + 12) else (year, month)
  let A := Int.fdiv ym.1 100
  let B := 2 - A + Int.fdiv A 4
  let jd0 : ℚ := (pytrunc ((365.25 : ℚ) * ((ym.1 : ℚ) + 4716)) : ℚ)
    + (pytrunc ((30.6001 : ℚ) * ((ym.2 : ℚ) + 1)) : ℚ) + (day : ℚ) + (B : ℚ) - 1524.5
  jd0 + ((hour : ℚ) + (minute : ℚ) / 60) / 24

/-- Solar mean longitude polynomial `L0` (line 451). -/
def sunL0 (T : ℚ) : ℚ :=
  let T2 := T * T
  let T3 := T2 * T
  280.4664567 + 360007.6982779 * T + 0.03032028 * T2 + T3 / 49931
    - T3 * T / 15300 - T3 * T2 / 2000000

/-- Solar mean anomaly polynomial `M` (line 452). -/
def sunM (T : ℚ) : ℚ :=
  let T2 := T * T
  let T3 := T2 * T
  357.52772 + 35999.05034 * T - 0.0001603 * T2 - T3 / 300000

/-- `sun_lon` (lines 455–460): true longitude = `L0` + equation of center. -/
def fallbackSunLon (O : TrigOracle) (T : ℚ) : ℚ :=
  let T2 := T * T
  let M_rad := radiansO O (sunM T)
  let C := (1.914602 - 0.004817 * T - 0.000014 * T2) * O.sin M_rad
    + (0.019993 - 0.000101 * T) * O.sin (2 * M_rad)
    + 0.000289 * O.sin (3 * M_rad)
  pymod (sunL0 T + C) 360

/-- `moon_lon` (lines 463–478): mean longitude plus the six main
periodic corrections. -/
def fallbackMoonLon (O : TrigOracle) (T : ℚ) : ℚ :=
  let T2 := T * T
  let T3 := T2 * T
  let L_moon := pymod (218.3164477 + 481267.88123421 * T - 0.0015786 * T2
    + T3 / 538841 - T3 * T / 65194000) 360
  let D := pymod (297.8501921 + 445267.1114034 * T - 0.0018819 * T2
    + T3 / 545868 - T3 * T / 113065000) 360
  let M_moon := pymod (134.9633964 + 477198.8675055 * T + 0.0087414 * T2
    + T3 / 69699 - T3 * T / 14712000) 360
  let F := pymod (93.2720950 + 483202.0175233 * T - 0.0036539 * T2
    - T3 / 3526000 + T3 * T / 863310000) 360
  let corr := 6.288774 * O.sin (radiansO O M_moon)
    + 1.274027 * O.sin (radiansO O (2 * D - M_moon))
    + 0.658314 * O.sin (radiansO O (2 * D))
    + 0.213618 * O.sin (radiansO O (2 * M_moon))
    + (-0.185116) * O.sin (radiansO O (sunM T))
    + (-0.114332) * O.sin (radiansO O (2 * F))
  pymod (L_moon + corr) 360

/-- `planet_data` (lines 481–490): `(name, L0, L1, a, e)` per planet; the
semi-major axis `a` is stored but never read by the propagation code. -/
def planet_data : List (String × ℚ × ℚ × ℚ × ℚ) :=
  [("水星", 252.250906, 149472.6746358, 0.38709893, 0.20563069),
   ("金星", 181.979801, 58517.8156760, 0.72333199, 0.00677323),
   ("火星", 355.433, 19140.299, 1.52366231, 0.09341233),
   ("木星", 34.351519, 3034.90567, 5.20336301, 0.04839266),
   ("土星", 50.077444, 1222.11387, 9.53707032, 0.05415060),
   ("天王星", 314.055, 428.467, 19.19126393, 0.04716771),
   ("海王星", 304.349, 218.486, 30.06896348, 0.00858587),
   ("冥王星", 238.928, 145.18, 39.48, 0.2488)]

/-- Per-planet propagation (lines 494–501): mean longitude `L`, mean
anomaly `M`, the one-step eccentric-anomaly formula
`E = M + e * degrees(sin(radians(M)))`, true anomaly `nu`, and the
geocentric simplification `lon = degrees(nu) + L0`, all `% 360`. -/
def planetLon (O : TrigOracle) (T L0 L1 e : ℚ) : ℚ :=
  let L := pymod (L0 + L1 * T) 360
  let M_planet := pymod (L - L0) 360
  let E := M_planet + e * degreesO O (O.sin (radiansO O M_planet))
  let nu := 2 * O.atan (O.sqrt ((1 + e) / (1 - e)) * O.tan (radiansO O E / 2))
  pymod (degreesO O nu + L0) 360

/-- Local sidereal time (lines 509–511): `GMST0` from `JD`, plus observer
longitude and civil time at 15°/hour, `% 360`. -/
def fallbackLST (JD : ℚ) (hour minute : ℤ) (longitudeObs : ℚ) : ℚ :=
  let GMST0 := pymod (280.46061837 + 360.98564736629 * (JD - 2451545)) 360
  pymod (GMST0 + longitudeObs + ((hour : ℚ) + (minute : ℚ) / 60) * 15) 360

/-- Ascendant (lines 513–523): the arctangent formula with the
`LST > 180` quadrant correction.  In the float code the division by
`cos(LST_rad)` never divides by an exact zero; rational division is total. -/
def fallbackAscLon (O : TrigOracle) (JD T : ℚ) (hour minute : ℤ)
    (latitude longitudeObs : ℚ) : ℚ :=
  let LST := fallbackLST JD hour minute longitudeObs
  let lat_rad := radiansO O latitude
  let epsilon := 23.4393 - 0.0130 * T
  let LST_rad := radiansO O LST
  let tan_asc := (O.cos LST_rad * O.tan (radiansO O epsilon) * O.cos lat_rad
    - O.sin lat_rad * O.sin LST_rad) / O.cos LST_rad
  let asc0 := pymod (degreesO O (O.atan tan_asc)) 360
  if LST > 180 then pymod (asc0 + 180) 360 else asc0

/-- Mean lunar node `omega` (line 532). -/
def fallbackOmega (T : ℚ) : ℚ :=
  let T2 := T * T
  let T3 := T2 * T
  pymod (125.0445479 - 1934.1362891 * T + 0.0020754 * T2 + T3 / 467441) 360

/-- The `planet_positions` dict of the fallback path in insertion order:
Sun, Moon, the eight `planet_data` planets, Ascendant, Midheaven, node. -/
def fallbackPositions (O : TrigOracle) (T asc_lon mc_lon omega : ℚ) :
    List (String × ℚ) :=
  [("太陽", fallbackSunLon O T), ("月亮", fallbackMoonLon O T)]
    ++ planet_data.map (fun pd => (pd.1, planetLon O T pd.2.1 pd.2.2.1 pd.2.2.2.2))
    ++ [("上升點", asc_lon), ("天頂", mc_lon), ("北交點", omega)]

/-- `create_advanced_fallback_chart` from `src/main.py` (lines 419–559),
after date/time parsing: clamp out-of-range fields, Julian day, positions,
equal houses from the Ascendant, then the formatting loop. -/
def create_advanced_fallback_chart (O : TrigOracle) (year month day hour minute : ℤ)
    (latitude longitudeObs : ℚ) : Except String (List (String × Entry)) :=
  let h := clampHour hour
  let mi := clampMinute minute
  let JD := julianDay year (clampMonth month) (clampDay day) h mi
  let T := (JD - 2451545) / 36525
  let asc_lon := fallbackAscLon O JD T h mi latitude longitudeObs
  let mc_lon := pymod (fallbackLST JD h mi longitudeObs + 90) 360
  let houses := (List.range 12).map (fun i : ℕ => pymod (asc_lon + (i : ℚ) * 30) 360)
  formatChart (fallbackPositions O T asc_lon mc_lon (fallbackOmega T)) houses

/-- The body names of a fallback chart, in output order. -/
def chartBodyNames : List String :=
  ["太陽", "月亮", "水星", "金星", "火星", "木星", "土星", "天王星", "海王星",
   "冥王星", "上升點", "天頂", "北交點"]

/-- The fallback chart always succeeds, lists exactly the thirteen bodies in
order, and every entry is fully populated with in-range sign and house. -/
theorem fallback_chart_spec (O : TrigOracle) (year month day hour minute : ℤ)
    (latitude longitudeObs : ℚ) :
    ∃ houses es,
      create_advanced_fallback_chart O year month day hour minute latitude longitudeObs
        = .ok es ∧
      es.map Prod.fst = chartBodyNames ∧
      ∀ p ∈ es, entryComplete houses p := by
  unfold create_advanced_fallback_chart
  obtain ⟨es, hok, hmap, hall⟩ := formatChart_ok (fallbackPositions O _ _ _ _) _
  refine ⟨_, es, hok, ?_, hall⟩
  rw [hmap]
  simp [fallbackPositions, planet_data, chartBodyNames]

/-- One body of the Swiss-path loop (lines 350–367): sign via
`int(longitude // 30)` and `SIGN_NAMES.get`, house via `get_planet_house`;
`HOUSE_NAMES[house_num]` raising inside the per-body `try` makes the body
be skipped, hence the `Option`.  The same record shape serves the node
(lines 373–386). -/
def swissPlanetEntry (houses : List ℚ) (lon sp : ℚ) : Option Entry :=
  (HOUSE_NAMES (get_planet_house lon houses)).map fun hname =>
    { longitude := pyround lon 2
      sign := signIdx lon
      sign_name := signNameGet (signIdx lon)
      house := get_planet_house lon houses
      house_name := hname
      degree_format := format_degree_minute lon
      speed := pyround sp 4 }

theorem swissPlanetEntry_isSome (houses : List ℚ) (lon sp : ℚ) :
    ∃ e, swissPlanetEntry houses lon sp = some e
      ∧ e.longitude = pyround lon 2 ∧ e.speed = pyround sp 4
      ∧ 1 ≤ e.house ∧ e.house ≤ 12 := by
  unfold swissPlanetEntry
  obtain ⟨h0, h1⟩ := get_planet_house_range lon houses
  obtain ⟨hn, hhn⟩ := Option.isSome_iff_exists.mp (HOUSE_NAMES_isSome h0 h1)
  exact ⟨_, by rw [hhn]; rfl, rfl, rfl, h0, h1⟩

/-- `calculate_swiss_ephemeris_chart` from `src/main.py` (lines 316–417),
after date/time parsing and `swe.julday`.  `calc pid` stands for
`swe.calc_ut(jd_ut, pid, …)` (`none` = the call raised, and the per-body
`except` skips that body); `nodeCalc` for the `swe.MEAN_NODE` call;
`housesRes` for `swe.houses` (whose failure aborts the whole chart).
The Ascendant and Midheaven records (lines 389–412) are always appended,
with literal house 1 / house 10 and `speed` 0.0. -/
def calculate_swiss_ephemeris_chart (calcUT : ℕ → Option (ℚ × ℚ))
    (nodeCalc : Option (ℚ × ℚ)) (housesRes : Option (List ℚ × ℚ × ℚ)) :
    Except String (List (String × Entry)) :=
  match housesRes with
  | none => .error "Swiss Ephemeris計算錯誤"
  | some (houses, asc, mc) =>
    let planetEntries := (List.range 10).filterMap fun pid =>
      match calcUT pid with
      | none => none
      | some (lon, sp) =>
        match swissPlanetEntry houses lon sp with
        | none => none
        | some e => some (planetNameGet pid, e)
    let nodeEntries := match nodeCalc with
      | none => []
      | some (lon, sp) =>
        match swissPlanetEntry houses lon sp with
        | none => []
        | some e => [("北交點", e)]
    let ascEntry : String × Entry := ("上升點",
      { longitude := pyround asc 2
        sign := signIdx asc
        sign_name := signNameGet (signIdx asc)
        house := 1
        house_name := "第一宮"
        degree_format := format_degree_minute asc
        speed := 0 })
    let mcEntry : String × Entry := ("天頂",
      { longitude := pyround mc 2
        sign := signIdx mc
        sign_name := signNameGet (signIdx mc)
        house := 10
        house_name := "第十宮"
        degree_format := format_degree_minute mc
        speed := 0 })
    .ok (planetEntries ++ nodeEntries ++ [ascEntry, mcEntry])

/-- The `ChartRequest` model of `src/main.py` (lines 61–66); `tz`
defaults to `8.0` in the source and is the field under test in the
tz-irrelevance claim. -/
structure ChartRequest where
  date : List Char
  time : List Char
  lat : ℚ
  lon : ℚ
  tz : ℚ
deriving DecidableEq

/-- The per-planet output record of the `/chart` endpoint (lines 804–811). -/
structure PlanetOut where
  sign : String
  house : String
  longitude : ℚ
  degree_format : String
  speed : ℚ
deriving DecidableEq

/-- The structured `/chart` response: `status` is `"success"` with a
calculation method and planet map, or `"error"` with a message. -/
inductive ChartResponse where
  | success (calculation_method : String) (planets : List (String × PlanetOut))
  | error (message : String)
deriving DecidableEq

def responseStatus : ChartResponse → String
  | .success _ _ => "success"
  | .error _ => "error"

def formatPlanetOut (e : Entry) : PlanetOut :=
  { sign := e.sign_name
    house := e.house_name
    longitude := e.longitude
    degree_format := e.degree_format
    speed := e.speed }

/-- Split a character list at every occurrence of `c`
(Python `str.split(sep)` semantics). -/
def splitOnChar (c : Char) : List Char → List (List Char)
  | [] => [[]]
  | x :: xs =>
    let r := splitOnChar c xs
    if x = c then [] :: r
    else
      match r with
      | [] => [[x]]
      | y :: ys => (x :: y) :: ys

/-- Python `str.zfill(w)`: left-pad with zeros to width `w`, keeping a
leading sign in front of the padding. -/
def pyZfill (w : ℕ) (s : List Char) : List Char :=
  if w ≤ s.length then s
  else
    match s with
    | [] => List.replicate w '0'
    | c :: rest =>
      if c = '+' ∨ c = '-' then c :: (List.replicate (w - s.length) '0' ++ rest)
      else List.replicate (w - s.length) '0' ++ s

/-- The date-cleaning prologue of `/chart` (lines 774–790): digits-only
filter, and when that is not 8 characters, reassembly from `/`- or
`-`-separated parts (`/` is tried first). -/
def cleanDate (s : List Char) : List Char :=
  let c := s.filter Char.isDigit
  if c.length = 8 then c
  else if '/' ∈ s then
    let parts := splitOnChar '/' s
    if parts.length = 3 then
      if (parts.getD 0 []).length = 4 then
        parts.getD 0 [] ++ pyZfill 2 (parts.getD 1 []) ++ pyZfill 2 (parts.getD 2 [])
      else
        parts.getD 2 [] ++ pyZfill 2 (parts.getD 0 []) ++ pyZfill 2 (parts.getD 1 [])
    else c
  else if '-' ∈ s then
    let parts := splitOnChar '-' s
    if parts.length = 3 then
      parts.getD 0 [] ++ pyZfill 2 (parts.getD 1 []) ++ pyZfill 2 (parts.getD 2 [])
    else c
  else c

/-- The `/chart` endpoint `analyze_chart` (lines 770–824), parametrized by
the availability flag and by the two chart providers as functions of
`(clean_date, time, lat, lon)`: if Swiss Ephemeris is available it is tried
first and any failure falls back to the approximate provider; a failure of
the provider actually used reaches the outer `except` as an `"error"`
response.  `req.tz` is never read. -/
def analyze_chart (swissAvailable : Bool)
    (swiss fallback : List Char → List Char → ℚ → ℚ → Except String (List (String × Entry)))
    (req : ChartRequest) : ChartResponse :=
  let clean_date := cleanDate req.date
  let attempt : Except String (List (String × Entry)) × String :=
    if swissAvailable then
      match swiss clean_date req.time req.lat req.lon with
      | .ok c => (.ok c, "Swiss Ephemeris專業計算")
      | .error _ => (fallback clean_date req.time req.lat req.lon, "高精度備用計算")
    else (fallback clean_date req.time req.lat req.lon, "高精度備用計算")
  match attempt.1 with
  | .ok c => .success attempt.2 (c.map fun p => (p.1, formatPlanetOut p.2))
  | .error e => .error e

/-- The Western-astrology slot of `/deep_analysis` (lines 597–612): the
branch is chosen by the import-time availability flag alone; a runtime
failure of the chosen provider is stored as an error marker, with no
fallback attempt. -/
inductive AstroSlot where
  | chart (c : List (String × Entry))
  | errorMarker (message : String)
deriving DecidableEq

def deepAnalysisAstro (swissAvailable : Bool)
    (swiss fallback : Except String (List (String × Entry))) : AstroSlot :=
  if swissAvailable then
    match swiss with
    | .ok c => .chart c
    | .error e => .errorMarker e
  else
    match fallback with
    | .ok c => .chart c
    | .error e => .errorMarker e

/-- The whitespace characters stripped by Python `str.strip()`. -/
def pyIsSpace (c : Char) : Bool :=
  c = ' ' || c = '\t' || c = '\n' || c = '\r' || c.toNat = 11 || c.toNat = 12

/-- Python `str.strip()`. -/
def pystrip (s : List Char) : List Char :=
  ((s.dropWhile pyIsSpace).reverse.dropWhile pyIsSpace).reverse

/-- Python `str.isdigit()` restricted to ASCII digit characters
(the empty string is not a digit string). -/
def pyIsDigitStr (l : List Char) : Bool := !l.isEmpty && l.all Char.isDigit

/-- Numeric value of an ASCII digit string. -/
def digitsVal (l : List Char) : ℤ :=
  l.foldl (fun a c => a * 10 + ((c.toNat : ℤ) - 48)) 0

/-- Python `int(str)` on ASCII input: surrounding whitespace, an optional
single sign, then a nonempty run of digits; `none` models the `ValueError`
raised on anything else. -/
def pyInt (s : List Char) : Option ℤ :=
  let t := pystrip s
  match t with
  | '+' :: rest => if pyIsDigitStr rest then some (digitsVal rest) else none
  | '-' :: rest => if pyIsDigitStr rest then some (-(digitsVal rest)) else none
  | _ => if pyIsDigitStr t then some (digitsVal t) else none

/-- `parse_time_string` from `src/main.py` (lines 117–141): strip and drop
spaces; a string containing `:` has its first two colon-separated fields
parsed with `int` (any `ValueError` reaches the `except` and yields
`(12, 0)`); otherwise a 4-digit string parses as `HHMM`, a string of at
most two digits as an hour, and anything else yields the default
`(12, 0)`. -/
def parse_time_string (s : List Char) : ℤ × ℤ :=
  let clean := (pystrip s).filter (fun c => c ≠ ' ')
  if ':' ∈ clean then
    let parts := splitOnChar ':' clean
    match pyInt (parts.getD 0 []) with
    | none => (12, 0)
    | some h =>
      if parts.length > 1 then
        match pyInt (parts.getD 1 []) with
        | none => (12, 0)
        | some m => (h, m)
      else (h, 0)
  else if clean.length = 4 ∧ pyIsDigitStr clean = true then
    (digitsVal (clean.take 2), digitsVal (clean.drop 2))
  else if clean.length ≤ 2 ∧ pyIsDigitStr clean = true then
    (digitsVal clean, 0)
  else (12, 0)

/-- The one-step eccentric-anomaly formula of the source (line 498),
`E = M + e * math.degrees(math.sin(math.radians(M)))`, over the reals
(angles in degrees, as in the code). -/
noncomputable def keplerEDeg (e M : ℝ) : ℝ :=
  M + e * (Real.sin (M * (Real.pi / 180)) * (180 / Real.pi))

/-- Kepler's equation `M = E − e·sin E` of the spec, written for angles
carried in degrees: `sin` is evaluated on the radian value of `E` and the
correction is converted back to degrees. -/
def KeplerEqDeg (e M E : ℝ) : Prop :=
  M = E - e * (Real.sin (E * (Real.pi / 180)) * (180 / Real.pi))

theorem abs_sin_sub_sin_le (a b : ℝ) : |Real.sin a - Real.sin b| ≤ |a - b| := by
  rw [Real.sin_sub_sin, abs_mul, abs_mul]
  have h1 : |Real.sin ((a - b) / 2)| ≤ |(a - b) / 2| := Real.abs_sin_le_abs
  have h2 : |Real.cos ((a + b) / 2)| ≤ 1 := Real.abs_cos_le_one _
  have h3 : |(2 : ℝ)| = 2 := by norm_num
  calc |(2 : ℝ)| * |Real.sin ((a - b) / 2)| * |Real.cos ((a + b) / 2)|
      ≤ |(2 : ℝ)| * |(a - b) / 2| * 1 := by
        apply mul_le_mul
        · exact mul_le_mul_of_nonneg_left h1 (abs_nonneg _)
        · exact h2
        · exact abs_nonneg _
        · positivity
    _ = |a - b| := by
        rw [h3, mul_one, abs_div]
        rw [show |(2 : ℝ)| = 2 by norm_num]
        ring

theorem pi_quarter_bounds :
    (0.785398 : ℝ) < Real.pi / 4 ∧ Real.pi / 4 < 0.78539825 := by
  have h1 := Real.pi_gt_d6
  have h2 := Real.pi_lt_d6
  constructor
  · linarith
  · linarith

theorem sin_pi_quarter_bounds :
    (0.66427 : ℝ) < Real.sin (Real.pi / 4) ∧ Real.sin (Real.pi / 4) < 0.7853983 := by
  obtain ⟨hl, hu⟩ := pi_quarter_bounds
  have hpos : (0 : ℝ) < Real.pi / 4 := by linarith
  have hle1 : Real.pi / 4 ≤ 1 := by linarith
  constructor
  · have hcube := Real.sin_gt_sub_cube hpos hle1
    have hc : (Real.pi / 4) ^ 3 ≤ (0.78539825 : ℝ) ^ 3 := by
      apply pow_le_pow_left₀ (le_of_lt hpos) (le_of_lt hu)
    have hK : (0.78539825 : ℝ) ^ 3 < 0.4845 := by norm_num
    linarith
  · have := Real.sin_lt hpos
    linarith

theorem sin_shifted_gap :
    (0.0829 : ℝ) <
      Real.sin (Real.pi / 4 + 0.2 * Real.sin (Real.pi / 4)) - Real.sin (Real.pi / 4) := by
  obtain ⟨hal, hau⟩ := pi_quarter_bounds
  obtain ⟨hsl, hsu⟩ := sin_pi_quarter_bounds
  rw [Real.sin_sub_sin]
  have harg1 : (Real.pi / 4 + 0.2 * Real.sin (Real.pi / 4) - Real.pi / 4) / 2
      = 0.1 * Real.sin (Real.pi / 4) := by ring
  have harg2 : (Real.pi / 4 + 0.2 * Real.sin (Real.pi / 4) + Real.pi / 4) / 2
      = Real.pi / 4 + 0.1 * Real.sin (Real.pi / 4) := by ring
  rw [harg1, harg2]
  have hu0 : (0 : ℝ) < 0.1 * Real.sin (Real.pi / 4) := by linarith
  have hu1 : (0.1 : ℝ) * Real.sin (Real.pi / 4) ≤ 1 := by linarith
  have hsinu : (0.0663 : ℝ) < Real.sin (0.1 * Real.sin (Real.pi / 4)) := by
    have hcube := Real.sin_gt_sub_cube hu0 hu1
    have hc : (0.1 * Real.sin (Real.pi / 4)) ^ 3 ≤ (0.07853983 : ℝ) ^ 3 := by
      apply pow_le_pow_left₀ (le_of_lt hu0)
      linarith
    have hK : (0.07853983 : ℝ) ^ 3 < 0.000485 := by norm_num
    linarith
  have hcosv : (0.6268 : ℝ) < Real.cos (Real.pi / 4 + 0.1 * Real.sin (Real.pi / 4)) := by
    have hbd := Real.one_sub_sq_div_two_le_cos
      (x := Real.pi / 4 + 0.1 * Real.sin (Real.pi / 4))
    have hv1 : Real.pi / 4 + 0.1 * Real.sin (Real.pi / 4) < 0.8639381 := by linarith
    have hv0 : (0 : ℝ) < Real.pi / 4 + 0.1 * Real.sin (Real.pi / 4) := by linarith
    have hsq : (Real.pi / 4 + 0.1 * Real.sin (Real.pi / 4)) ^ 2 < (0.8639381 : ℝ) ^ 2 := by
      nlinarith
    have hK : (0.8639381 : ℝ) ^ 2 < 0.74639 := by norm_num
    nlinarith
  nlinarith [hsinu, hcosv]

/-- `math.degrees(math.sin(math.radians(x)))` over the reals. -/
noncomputable def gdeg (x : ℝ) : ℝ := Real.sin (x * (Real.pi / 180)) * (180 / Real.pi)

theorem gdeg_lipschitz (x y : ℝ) : |gdeg x - gdeg y| ≤ |x - y| := by
  unfold gdeg
  rw [← sub_mul, abs_mul]
  have hpipos := Real.pi_pos
  have h1 := abs_sin_sub_sin_le (x * (Real.pi / 180)) (y * (Real.pi / 180))
  rw [← sub_mul] at h1
  have h180 : |((180 : ℝ) / Real.pi)| = 180 / Real.pi := abs_of_pos (by positivity)
  rw [h180]
  calc |Real.sin (x * (Real.pi / 180)) - Real.sin (y * (Real.pi / 180))| * (180 / Real.pi)
      ≤ |(x - y) * (Real.pi / 180)| * (180 / Real.pi) := by
        exact mul_le_mul_of_nonneg_right h1 (by positivity)
    _ = |x - y| * (Real.pi / 180) * (180 / Real.pi) := by
        rw [abs_mul, abs_of_pos (show (0 : ℝ) < Real.pi / 180 by positivity)]
    _ = |x - y| := by
        field_simp

theorem keplerEDeg_eq_gdeg (e M : ℝ) : keplerEDeg e M = M + e * gdeg M := rfl

theorem kepler_c_rad :
    keplerEDeg 0.2 45 * (Real.pi / 180) = Real.pi / 4 + 0.2 * Real.sin (Real.pi / 4) := by
  have hpi0 : Real.pi ≠ 0 := Real.pi_ne_zero
  unfold keplerEDeg
  rw [show (45 : ℝ) * (Real.pi / 180) = Real.pi / 4 by ring]
  field_simp
  ring

theorem gdeg_gap : (4.74 : ℝ) < gdeg (keplerEDeg 0.2 45) - gdeg 45 := by
  have hpipos := Real.pi_pos
  have hpu := Real.pi_lt_d6
  unfold gdeg
  rw [kepler_c_rad, show (45 : ℝ) * (Real.pi / 180) = Real.pi / 4 by ring, ← sub_mul]
  have hgap := sin_shifted_gap
  have h57 : (57.29 : ℝ) < 180 / Real.pi := by
    rw [lt_div_iff₀ (by positivity)]
    nlinarith
  nlinarith [hgap, h57]

/-- Every solution of Kepler's equation at `e = 0.2`, `M = 45°` is at least
half a degree away from the one-step value the code computes. -/
theorem kepler_code_far (E : ℝ) (hE : KeplerEqDeg 0.2 45 E) :
    1 / 2 ≤ |keplerEDeg 0.2 45 - E| := by
  have hE2 : (45 : ℝ) = E - 0.2 * gdeg E := hE
  set c := keplerEDeg 0.2 45 with hc
  have hcval : c = 45 + 0.2 * gdeg 45 := keplerEDeg_eq_gdeg 0.2 45
  have hres : c - 0.2 * gdeg c - 45 = -(0.2 * (gdeg c - gdeg 45)) := by
    rw [hcval]
    ring
  have hsplit : c - 0.2 * gdeg c - 45 = (c - E) - 0.2 * (gdeg c - gdeg E) := by
    rw [hE2]
    ring
  have hlip := gdeg_lipschitz c E
  have hgap := gdeg_gap
  rw [← hc] at hgap
  have habs : |c - 0.2 * gdeg c - 45| ≤ 1.2 * |c - E| := by
    rw [hsplit]
    calc |(c - E) - 0.2 * (gdeg c - gdeg E)|
        ≤ |c - E| + |0.2 * (gdeg c - gdeg E)| := abs_sub _ _
      _ = |c - E| + 0.2 * |gdeg c - gdeg E| := by
          rw [abs_mul, show |(0.2 : ℝ)| = 0.2 by norm_num]
      _ ≤ |c - E| + 0.2 * |c - E| := by linarith
      _ = 1.2 * |c - E| := by ring
  have hlow : (0.948 : ℝ) ≤ |c - 0.2 * gdeg c - 45| := by
    rw [hres, abs_neg, abs_mul, show |(0.2 : ℝ)| = 0.2 by norm_num,
      abs_of_pos (show (0 : ℝ) < gdeg c - gdeg 45 by linarith)]
    linarith
  have := le_trans hlow habs
  linarith [abs_nonneg (c - E)]

/-- Cyclic cusp accessor: cusp `i` of the 12-element `houses` list. -/
def cusp (houses : List ℚ) (i : ℕ) : ℚ := houses.getD (i % 12) 0

/-- Number of descents `cusp (i+1) < cusp i` among the first `n` cyclic
adjacent pairs.  A 12-cusp list is circularly ordered exactly when
`descCount houses 12 = 1`. -/
def descCount (houses : List ℚ) : ℕ → ℕ
  | 0 => 0
  | n + 1 => descCount houses n + (if cusp houses (n + 1) < cusp houses n then 1 else 0)

/-- Forward arc length from cusp `i` to cusp `i+1`. -/
def gap (houses : List ℚ) (i : ℕ) : ℚ := pymod (cusp houses (i + 1) - cusp houses i) 360

/-- Partial sums of the arc lengths. -/
def gapSum (houses : List ℚ) : ℕ → ℚ
  | 0 => 0
  | n + 1 => gapSum houses n + gap houses n

/-- The interval test of `get_planet_house` for house number `hn`
(`1 ≤ hn ≤ 12`), exactly as the loop body states it: cusps
`houses[hn-1]` and `houses[next_house-1]`, the half-open interval when
they increase and the wraparound test when they do not. -/
def matchesHouse (lo : ℚ) (houses : List ℚ) (hn : ℕ) : Prop :=
  let s := houses.getD (hn - 1) 0
  let e := houses.getD ((if hn < 12 then hn + 1 else 1) - 1) 0
  if s < e then s ≤ lo ∧ lo < e else (lo ≥ s ∨ lo < e)

instance (lo : ℚ) (houses : List ℚ) (hn : ℕ) : Decidable (matchesHouse lo houses hn) := by
  unfold matchesHouse
  exact inferInstance

theorem cusp_range {houses : List ℚ}
    (hrange : ∀ i, i < 12 → 0 ≤ houses.getD i 0 ∧ houses.getD i 0 < 360) (j : ℕ) :
    0 ≤ cusp houses j ∧ cusp houses j < 360 :=
  hrange (j % 12) (Nat.mod_lt _ (by norm_num))

theorem gap_val {houses : List ℚ}
    (hrange : ∀ i, i < 12 → 0 ≤ houses.getD i 0 ∧ houses.getD i 0 < 360)
    (hdist : ∀ i, i < 12 → cusp houses (i + 1) ≠ cusp houses i) (i : ℕ) (hi : i < 12) :
    gap houses i = cusp houses (i + 1) - cusp houses i
      + (if cusp houses (i + 1) < cusp houses i then 360 else 0) := by
  obtain ⟨h0, h1⟩ := cusp_range hrange i
  obtain ⟨h0s, h1s⟩ := cusp_range hrange (i + 1)
  unfold gap
  rcases lt_trichotomy (cusp houses (i + 1)) (cusp houses i) with hlt | heq | hgt
  · rw [if_pos hlt, pymod_eq_add_self (by norm_num) (by linarith) (by linarith)]
  · exact absurd heq (hdist i hi)
  · rw [if_neg (not_lt.mpr (le_of_lt hgt)),
      pymod_eq_self (by norm_num) (by linarith) (by linarith)]
    ring

theorem gap_pos {houses : List ℚ}
    (hrange : ∀ i, i < 12 → 0 ≤ houses.getD i 0 ∧ houses.getD i 0 < 360)
    (hdist : ∀ i, i < 12 → cusp houses (i + 1) ≠ cusp houses i) (i : ℕ) (hi : i < 12) :
    0 < gap houses i := by
  rw [gap_val hrange hdist i hi]
  rcases lt_trichotomy (cusp houses (i + 1)) (cusp houses i) with hlt | heq | hgt
  · rw [if_pos hlt]
    obtain ⟨h0, h1⟩ := cusp_range hrange i
    obtain ⟨h0s, h1s⟩ := cusp_range hrange (i + 1)
    linarith
  · exact absurd heq (hdist i hi)
  · rw [if_neg (not_lt.mpr (le_of_lt hgt))]
    linarith

theorem gapSum_formula {houses : List ℚ}
    (hrange : ∀ i, i < 12 → 0 ≤ houses.getD i 0 ∧ houses.getD i 0 < 360)
    (hdist : ∀ i, i < 12 → cusp houses (i + 1) ≠ cusp houses i) :
    ∀ n, n ≤ 12 → gapSum houses n
      = cusp houses n - cusp houses 0 + 360 * (descCount houses n : ℚ) := by
  intro n
  induction n with
  | zero => intro _; simp [gapSum, descCount]
  | succ m ih =>
    intro hm
    have hm12 : m < 12 := by omega
    have hrec : gapSum houses (m + 1) = gapSum houses m + gap houses m := rfl
    have hdrec0 : descCount houses (m + 1)
        = descCount houses m + (if cusp houses (m + 1) < cusp houses m then 1 else 0) := rfl
    have hdrec : (descCount houses (m + 1) : ℚ)
        = (descCount houses m : ℚ)
          + (if cusp houses (m + 1) < cusp houses m then 1 else 0) := by
      rw [hdrec0]
      split <;> push_cast <;> ring
    rw [hrec, ih (by omega), gap_val hrange hdist m hm12, hdrec]
    split <;> ring

theorem cusp_twelve (houses : List ℚ) : cusp houses 12 = cusp houses 0 := by
  unfold cusp
  norm_num

theorem gapSum_twelve {houses : List ℚ}
    (hrange : ∀ i, i < 12 → 0 ≤ houses.getD i 0 ∧ houses.getD i 0 < 360)
    (hdist : ∀ i, i < 12 → cusp houses (i + 1) ≠ cusp houses i)
    (hdesc : descCount houses 12 = 1) :
    gapSum houses 12 = 360 := by
  rw [gapSum_formula hrange hdist 12 (le_refl _), cusp_twelve, hdesc]
  norm_num

theorem gapSum_mono {houses : List ℚ}
    (hrange : ∀ i, i < 12 → 0 ≤ houses.getD i 0 ∧ houses.getD i 0 < 360)
    (hdist : ∀ i, i < 12 → cusp houses (i + 1) ≠ cusp houses i) :
    ∀ j, j ≤ 12 → ∀ i, i ≤ j → gapSum houses i ≤ gapSum houses j := by
  intro j
  induction j with
  | zero =>
    intro _ i hi
    have hz : i = 0 := by omega
    rw [hz]
  | succ m ih =>
    intro hm i hi
    rcases Nat.lt_or_ge i (m + 1) with hlt | hge
    · have h1 := ih (by omega) i (by omega)
      have h2 : gapSum houses (m + 1) = gapSum houses m + gap houses m := rfl
      have h3 := gap_pos hrange hdist m (by omega)
      linarith
    · have : i = m + 1 := by omega
      rw [this]

theorem pymod_add_int_mul (a : ℚ) (n : ℤ) : pymod (a + 360 * n) 360 = pymod a 360 := by
  unfold pymod
  have hdiv : (a + 360 * n) / 360 = a / 360 + n := by
    field_simp
    ring
  rw [hdiv, Int.floor_add_int]
  push_cast
  ring

theorem matchesHouse_iff_cusp {houses : List ℚ} (i : ℕ) (hi : i < 12) (lo : ℚ) :
    matchesHouse lo houses (i + 1) ↔
      (if cusp houses i < cusp houses (i + 1) then
        cusp houses i ≤ lo ∧ lo < cusp houses (i + 1)
      else (lo ≥ cusp houses i ∨ lo < cusp houses (i + 1))) := by
  unfold matchesHouse cusp
  have e2 : i % 12 = i := Nat.mod_eq_of_lt hi
  rcases Nat.lt_or_ge (i + 1) 12 with hlt | hge
  · have e3 : (i + 1) % 12 = i + 1 := Nat.mod_eq_of_lt hlt
    simp only [e2, e3, Nat.add_sub_cancel, if_pos hlt]
  · have hi11 : i = 11 := by omega
    subst hi11
    norm_num

theorem matchesHouse_iff_lt_gap {houses : List ℚ}
    (hrange : ∀ i, i < 12 → 0 ≤ houses.getD i 0 ∧ houses.getD i 0 < 360)
    (hdist : ∀ i, i < 12 → cusp houses (i + 1) ≠ cusp houses i)
    {L : ℚ} (hL0 : 0 ≤ L) (hL1 : L < 360) (i : ℕ) (hi : i < 12) :
    matchesHouse L houses (i + 1) ↔ pymod (L - cusp houses i) 360 < gap houses i := by
  rw [matchesHouse_iff_cusp i hi]
  obtain ⟨hc0, hc1⟩ := cusp_range hrange i
  obtain ⟨hd0, hd1⟩ := cusp_range hrange (i + 1)
  rw [gap_val hrange hdist i hi]
  rcases lt_trichotomy (cusp houses (i + 1)) (cusp houses i) with hlt | heq | hgt
  · rw [if_pos hlt, if_neg (not_lt.mpr (le_of_lt hlt))]
    constructor
    · rintro (hge | hlt2)
      · rw [pymod_eq_self (by norm_num) (by linarith) (by linarith)]
        linarith
      · rw [pymod_eq_add_self (by norm_num) (by linarith) (by linarith)]
        linarith
    · intro h
      by_cases hcase : cusp houses i ≤ L
      · left; exact hcase
      · right
        push_neg at hcase
        rw [pymod_eq_add_self (by norm_num) (by linarith) (by linarith)] at h
        linarith
  · exact absurd heq (hdist i hi)
  · rw [if_neg (not_lt.mpr (le_of_lt hgt)), if_pos hgt]
    constructor
    · rintro ⟨hge, hlt2⟩
      rw [pymod_eq_self (by norm_num) (by linarith) (by linarith)]
      linarith
    · intro h
      by_cases hcase : cusp houses i ≤ L
      · refine ⟨hcase, ?_⟩
        rw [pymod_eq_self (by norm_num) (by linarith) (by linarith)] at h
        linarith
      · push_neg at hcase
        rw [pymod_eq_add_self (by norm_num) (by linarith) (by linarith)] at h
        linarith

theorem pymod_sub_cusp_shift {houses : List ℚ}
    (hrange : ∀ i, i < 12 → 0 ≤ houses.getD i 0 ∧ houses.getD i 0 < 360)
    (hdist : ∀ i, i < 12 → cusp houses (i + 1) ≠ cusp houses i)
    (L : ℚ) (i : ℕ) (hi : i ≤ 12) :
    pymod (L - cusp houses i) 360
      = pymod (pymod (L - cusp houses 0) 360 - gapSum houses i) 360 := by
  rw [gapSum_formula hrange hdist i hi]
  have hexp : pymod (L - cusp houses 0) 360
        - (cusp houses i - cusp houses 0 + 360 * (descCount houses i : ℚ))
      = (L - cusp houses i)
        + 360 * ((-⌊(L - cusp houses 0) / 360⌋ - (descCount houses i : ℤ) : ℤ) : ℚ) := by
    unfold pymod
    push_cast
    ring
  rw [hexp, pymod_add_int_mul]

theorem lt_gap_iff_interval {houses : List ℚ}
    (hrange : ∀ i, i < 12 → 0 ≤ houses.getD i 0 ∧ houses.getD i 0 < 360)
    (hdist : ∀ i, i < 12 → cusp houses (i + 1) ≠ cusp houses i)
    (hdesc : descCount houses 12 = 1)
    {t : ℚ} (ht0 : 0 ≤ t) (ht1 : t < 360) (i : ℕ) (hi : i < 12) :
    pymod (t - gapSum houses i) 360 < gap houses i ↔
      (gapSum houses i ≤ t ∧ t < gapSum houses (i + 1)) := by
  have hS0 : 0 ≤ gapSum houses i := by
    have h := gapSum_mono hrange hdist i (by omega) 0 (by omega)
    simpa [gapSum] using h
  have hS12 : gapSum houses 12 = 360 := gapSum_twelve hrange hdist hdesc
  have hSi1_le : gapSum houses (i + 1) ≤ 360 := by
    have h := gapSum_mono hrange hdist 12 (le_refl _) (i + 1) (by omega)
    linarith
  have hstep : gapSum houses (i + 1) = gapSum houses i + gap houses i := rfl
  have hgp := gap_pos hrange hdist i hi
  by_cases hcase : gapSum houses i ≤ t
  · have h1 : 0 ≤ t - gapSum houses i := by linarith
    have h2 : t - gapSum houses i < 360 := by linarith
    rw [pymod_eq_self (by norm_num) h1 h2]
    constructor
    · intro h
      exact ⟨hcase, by linarith⟩
    · rintro ⟨_, h⟩
      linarith
  · push_neg at hcase
    have hSi_lt : gapSum houses i < 360 := by linarith
    have h1 : -(360 : ℚ) ≤ t - gapSum houses i := by linarith
    have h2 : t - gapSum houses i < 0 := by linarith
    rw [pymod_eq_add_self (by norm_num) h1 h2]
    constructor
    · intro h
      exfalso
      linarith
    · rintro ⟨hle, _⟩
      exact absurd hle (not_le.mpr hcase)

theorem exists_interval {houses : List ℚ} {t : ℚ} (ht0 : 0 ≤ t) :
    ∀ n, t < gapSum houses n →
      ∃ i, i < n ∧ gapSum houses i ≤ t ∧ t < gapSum houses (i + 1) := by
  intro n
  induction n with
  | zero =>
    intro h
    exfalso
    simp only [gapSum] at h
    linarith
  | succ m ih =>
    intro h
    by_cases hc : gapSum houses m ≤ t
    · exact ⟨m, by omega, hc, h⟩
    · push_neg at hc
      obtain ⟨i, hi, h1, h2⟩ := ih hc
      exact ⟨i, by omega, h1, h2⟩

theorem interval_unique {houses : List ℚ}
    (hrange : ∀ i, i < 12 → 0 ≤ houses.getD i 0 ∧ houses.getD i 0 < 360)
    (hdist : ∀ i, i < 12 → cusp houses (i + 1) ≠ cusp houses i)
    {t : ℚ} {i j : ℕ} (hi : i < 12) (hj : j < 12)
    (h1 : gapSum houses i ≤ t ∧ t < gapSum houses (i + 1))
    (h2 : gapSum houses j ≤ t ∧ t < gapSum houses (j + 1)) : i = j := by
  by_contra hne
  rcases Nat.lt_or_ge i j with hlt | hge
  · have h := gapSum_mono hrange hdist j (by omega) (i + 1) (by omega)
    linarith [h1.2, h2.1]
  · have hgt : j < i := by omega
    have h := gapSum_mono hrange hdist i (by omega) (j + 1) (by omega)
    linarith [h2.2, h1.1]

theorem housesLoop_step (lo : ℚ) {houses : List ℚ} (hlen : houses.length = 12)
    (hn : ℕ) (rest : List ℕ) (h1 : 1 ≤ hn) (h2 : hn ≤ 12) :
    housesLoop lo houses (hn :: rest)
      = if matchesHouse lo houses hn then hn else housesLoop lo houses rest := by
  have hidx1 : hn - 1 < houses.length := by omega
  have hidx2 : (if hn < 12 then hn + 1 else 1) - 1 < houses.length := by
    split <;> omega
  have hg1 : houses[hn - 1]? = some (houses.getD (hn - 1) 0) := by
    rw [List.getElem?_eq_getElem hidx1, List.getD_eq_getElem houses 0 hidx1]
  have hg2 : houses[(if hn < 12 then hn + 1 else 1) - 1]?
      = some (houses.getD ((if hn < 12 then hn + 1 else 1) - 1) 0) := by
    rw [List.getElem?_eq_getElem hidx2, List.getD_eq_getElem houses 0 hidx2]
  unfold housesLoop matchesHouse
  simp only [hg1, hg2]
  split_ifs <;> first
  | rfl
  | (cases rest <;> rfl)

theorem housesLoop_finds (lo : ℚ) {houses : List ℚ} (hlen : houses.length = 12)
    (l : List ℕ) (hl : ∀ hn ∈ l, 1 ≤ hn ∧ hn ≤ 12)
    (hex : ∃ hn ∈ l, matchesHouse lo houses hn) :
    housesLoop lo houses l ∈ l ∧ matchesHouse lo houses (housesLoop lo houses l) := by
  revert hl hex
  induction l with
  | nil =>
    intro _ hex
    obtain ⟨hn, h, _⟩ := hex
    cases h
  | cons hn rest ih =>
    intro hl hex
    obtain ⟨h1, h2⟩ := hl hn (List.mem_cons_self _ _)
    rw [housesLoop_step lo hlen hn rest h1 h2]
    by_cases hfirst : matchesHouse lo houses hn
    · rw [if_pos hfirst]
      exact ⟨List.mem_cons_self _ _, hfirst⟩
    · rw [if_neg hfirst]
      have hex2 : ∃ x ∈ rest, matchesHouse lo houses x := by
        obtain ⟨x, hx, hm⟩ := hex
        rcases List.mem_cons.mp hx with hhd | hr
        · exact absurd (hhd ▸ hm) hfirst
        · exact ⟨x, hr, hm⟩
      obtain ⟨ha, hb⟩ := ih (fun x hx => hl x (List.mem_cons_of_mem _ hx)) hex2
      exact ⟨List.mem_cons_of_mem _ ha, hb⟩

/-- For a genuine circular cusp list (all cusps in `[0,360)`, adjacent cusps
distinct, exactly one descent around the circle) and any longitude in
`[0,360)`, exactly one house interval matches, and `get_planet_house`
returns a house in `[1,12]` whose interval matches — hence the unique one. -/
theorem house_assignment_unique (houses : List ℚ) (L : ℚ)
    (hlen : houses.length = 12)
    (hrange : ∀ i, i < 12 → 0 ≤ houses.getD i 0 ∧ houses.getD i 0 < 360)
    (hdist : ∀ i, i < 12 → cusp houses (i + 1) ≠ cusp houses i)
    (hdesc : descCount houses 12 = 1)
    (hL0 : 0 ≤ L) (hL1 : L < 360) :
    (∃! hn : ℕ, 1 ≤ hn ∧ hn ≤ 12 ∧ matchesHouse L houses hn)
    ∧ 1 ≤ get_planet_house L houses ∧ get_planet_house L houses ≤ 12
    ∧ matchesHouse L houses (get_planet_house L houses) := by
  have ht0 : 0 ≤ pymod (L - cusp houses 0) 360 := pymod_nonneg _ (by norm_num)
  have ht1 : pymod (L - cusp houses 0) 360 < 360 := pymod_lt _ (by norm_num)
  have hiff : ∀ i, i < 12 → (matchesHouse L houses (i + 1) ↔
      (gapSum houses i ≤ pymod (L - cusp houses 0) 360
        ∧ pymod (L - cusp houses 0) 360 < gapSum houses (i + 1))) := by
    intro i hi
    rw [matchesHouse_iff_lt_gap hrange hdist hL0 hL1 i hi,
      pymod_sub_cusp_shift hrange hdist L i (by omega),
      lt_gap_iff_interval hrange hdist hdesc ht0 ht1 i hi]
  have hS12 : gapSum houses 12 = 360 := gapSum_twelve hrange hdist hdesc
  obtain ⟨i0, hi0lt, hin1, hin2⟩ :=
    exists_interval ht0 12 (by rw [hS12]; exact ht1)
  have hm0 : matchesHouse L houses (i0 + 1) := (hiff i0 hi0lt).mpr ⟨hin1, hin2⟩
  have huniq : ∀ hn : ℕ, (1 ≤ hn ∧ hn ≤ 12 ∧ matchesHouse L houses hn) → hn = i0 + 1 := by
    rintro hn ⟨b1, b2, hm⟩
    have hb : hn - 1 < 12 := by omega
    have heq : hn = (hn - 1) + 1 := by omega
    have hint := (hiff (hn - 1) hb).mp (by rw [← heq]; exact hm)
    have := interval_unique hrange hdist hb hi0lt hint ⟨hin1, hin2⟩
    omega
  have hpm : pymod L 360 = L := pymod_eq_self (by norm_num) hL0 hL1
  have hbounds : ∀ hn ∈ (List.range 12).map (· + 1), 1 ≤ hn ∧ hn ≤ 12 := by
    intro hn hmem
    simp only [List.mem_map, List.mem_range] at hmem
    obtain ⟨j, hj, hx⟩ := hmem
    omega
  have hex : ∃ hn ∈ (List.range 12).map (· + 1), matchesHouse L houses hn := by
    refine ⟨i0 + 1, ?_, hm0⟩
    simp only [List.mem_map, List.mem_range]
    exact ⟨i0, hi0lt, rfl⟩
  have hfind := housesLoop_finds L hlen ((List.range 12).map (· + 1)) hbounds hex
  have hgph : get_planet_house L houses
      = housesLoop L houses ((List.range 12).map (· + 1)) := by
    unfold get_planet_house
    rw [hpm]
  obtain ⟨hmem, hmatch⟩ := hfind
  obtain ⟨hmb1, hmb2⟩ := hbounds _ hmem
  refine ⟨⟨i0 + 1, ⟨by omega, by omega, hm0⟩, fun hn hy => huniq hn hy⟩, ?_, ?_, ?_⟩
  · rw [hgph]; exact hmb1
  · rw [hgph]; exact hmb2
  · rw [hgph]; exact hmatch

theorem clampMonth_idem (m : ℤ) : clampMonth (clampMonth m) = clampMonth m := by
  unfold clampMonth
  split_ifs with h1 h2 <;> omega

theorem clampDay_idem (d : ℤ) : clampDay (clampDay d) = clampDay d := by
  unfold clampDay
  split_ifs with h1 h2 <;> omega

theorem clampHour_idem (h : ℤ) : clampHour (clampHour h) = clampHour h := by
  unfold clampHour
  split_ifs with h1 h2 <;> omega

theorem clampMinute_idem (mi : ℤ) : clampMinute (clampMinute mi) = clampMinute mi := by
  unfold clampMinute
  split_ifs with h1 h2 <;> omega

/-- A concrete trig oracle (the theorems hold for every oracle; this one
serves as an explicit instance in concrete evaluations). -/
def oracle0 : TrigOracle :=
  { sin := fun _ => 0
    cos := fun _ => 1
    tan := fun _ => 0
    atan := fun _ => 0
    sqrt := fun _ => 1
    pi := 3.141592653589793 }

/-- C2, amended claim.  Out-of-domain date/time fields are silently clamped
into range (month and day to 1, hour to 12, minute to 0) before the Julian
day is computed — the chart of any input equals the chart of its clamped
input — and the computation then succeeds; no `InputRangeError` is ever
raised, for the year no range check exists at all. -/
theorem validation_clamps_and_succeeds (O : TrigOracle) (year month day hour minute : ℤ)
    (latitude longitudeObs : ℚ) :
    create_advanced_fallback_chart O year month day hour minute latitude longitudeObs
      = create_advanced_fallback_chart O year (clampMonth month) (clampDay day)
          (clampHour hour) (clampMinute minute) latitude longitudeObs
    ∧ (1 ≤ clampMonth month ∧ clampMonth month ≤ 12
        ∧ 1 ≤ clampDay day ∧ clampDay day ≤ 31
        ∧ 0 ≤ clampHour hour ∧ clampHour hour ≤ 23
        ∧ 0 ≤ clampMinute minute ∧ clampMinute minute ≤ 59)
    ∧ ∃ es, create_advanced_fallback_chart O year month day hour minute
        latitude longitudeObs = .ok es := by
  refine ⟨?_, ?_, ?_⟩
  · unfold create_advanced_fallback_chart
    rw [clampMonth_idem, clampDay_idem, clampHour_idem, clampMinute_idem]
  · unfold clampMonth clampDay clampHour clampMinute
    split_ifs <;> omega
  · obtain ⟨houses, es, hok, _, _⟩ :=
      fallback_chart_spec O year month day hour minute latitude longitudeObs
    exact ⟨es, hok⟩

/-- C2, counterexample.  The claim says a month of 13 (and the other
out-of-domain fields below) must make the computation fail with
`InputRangeError`; instead the code silently replaces them (month 13 → 1,
day 0 → 1, hour 24 → 12, minute 60 → 0), computes the Julian day from the
replaced values, and succeeds. -/
theorem out_of_range_silently_clamped :
    clampMonth 13 = 1 ∧ clampDay 0 = 1 ∧ clampHour 24 = 12 ∧ clampMinute 60 = 0
    ∧ julianDay 2000 (clampMonth 13) (clampDay 0) (clampHour 24) (clampMinute 60)
        = julianDay 2000 1 1 12 0
    ∧ ∃ es, create_advanced_fallback_chart oracle0 2000 13 0 24 60 25 121 = .ok es := by
  have h1 : clampMonth 13 = 1 := by decide
  have h2 : clampDay 0 = 1 := by decide
  have h3 : clampHour 24 = 12 := by decide
  have h4 : clampMinute 60 = 0 := by decide
  refine ⟨h1, h2, h3, h4, by rw [h1, h2, h3, h4], ?_⟩
  obtain ⟨houses, es, hok, _, _⟩ := fallback_chart_spec oracle0 2000 13 0 24 60 25 121
  exact ⟨es, hok⟩

/-- C3.  For every birth input (valid ones included) and every trig oracle,
the fallback chart computation succeeds, produces exactly the thirteen
bodies and angles in order, and every entry carries the full record: a sign
name from `SIGN_NAMES`, a house name from `HOUSE_NAMES`, the normalized
longitude rounded to 2 decimals, the degree/minute string within the sign,
and speed 0 (in particular 0 for the Ascendant and Midheaven). -/
theorem chart_entries_complete (O : TrigOracle) (year month day hour minute : ℤ)
    (latitude longitudeObs : ℚ) :
    ∃ es, create_advanced_fallback_chart O year month day hour minute
        latitude longitudeObs = .ok es
      ∧ es.map Prod.fst = chartBodyNames
      ∧ (∀ p ∈ es, ∃ L : ℚ, 0 ≤ L ∧ L < 360
          ∧ p.2.longitude = pyround L 2
          ∧ SIGN_NAMES p.2.sign = some p.2.sign_name
          ∧ HOUSE_NAMES p.2.house = some p.2.house_name
          ∧ p.2.degree_format = format_degree_minute L
          ∧ p.2.speed = 0)
      ∧ ∀ p ∈ es, (p.1 = "上升點" ∨ p.1 = "天頂") → p.2.speed = 0 := by
  obtain ⟨houses, es, hok, hmap, hall⟩ :=
    fallback_chart_spec O year month day hour minute latitude longitudeObs
  refine ⟨es, hok, hmap, ?_, ?_⟩
  · intro p hp
    obtain ⟨L, h0, h1, hlon, _, _, _, hsn, _, _, _, hhn, hdf, hsp⟩ := hall p hp
    exact ⟨L, h0, h1, hlon, hsn, hhn, hdf, hsp⟩
  · intro p hp _
    obtain ⟨L, h0, h1, hlon, _, _, _, hsn, _, _, _, hhn, hdf, hsp⟩ := hall p hp
    exact hsp

/-- C8.  In the fallback chart every stored body position is classified
from a longitude normalized into `[0,360)`: the sign index is computed from
that normalized value and lies in `[0,11]`, and the house index comes from
`get_planet_house` on the same value and lies in `[1,12]`, whatever the
oracle and the input. -/
theorem chart_longitudes_normalized (O : TrigOracle) (year month day hour minute : ℤ)
    (latitude longitudeObs : ℚ) :
    ∃ houses es, create_advanced_fallback_chart O year month day hour minute
        latitude longitudeObs = .ok es
      ∧ ∀ p ∈ es, ∃ L : ℚ, 0 ≤ L ∧ L < 360
          ∧ p.2.sign = signIdx L ∧ 0 ≤ p.2.sign ∧ p.2.sign ≤ 11
          ∧ p.2.house = get_planet_house L houses ∧ 1 ≤ p.2.house ∧ p.2.house ≤ 12
          ∧ p.2.longitude = pyround L 2 := by
  obtain ⟨houses, es, hok, hmap, hall⟩ :=
    fallback_chart_spec O year month day hour minute latitude longitudeObs
  refine ⟨houses, es, hok, ?_⟩
  intro p hp
  obtain ⟨L, h0, h1, hlon, hsig, hs0, hs1, _, hh, hh0, hh1, _, _, _⟩ := hall p hp
  exact ⟨L, h0, h1, hsig, hs0, hs1, hh, hh0, hh1, hlon⟩

/-- C7.  For every longitude in `[0,360)`: the sign index equals
`⌊L/30⌋ mod 12` and lies in `[0,11]`, the degree-in-sign `L % 30` lies in
`[0,30)`, and `signIdx·30 + degreeInSign` reconstructs `L` exactly. -/
theorem sign_classification_exact (L : ℚ) (h0 : 0 ≤ L) (h1 : L < 360) :
    signIdx L = ⌊L / 30⌋ % 12
    ∧ 0 ≤ signIdx L ∧ signIdx L ≤ 11
    ∧ 0 ≤ degreeInSign L ∧ degreeInSign L < 30
    ∧ (signIdx L : ℚ) * 30 + degreeInSign L = L := by
  obtain ⟨hs0, hs1⟩ := signIdx_range h0 h1
  refine ⟨?_, hs0, hs1, ?_, ?_, ?_⟩
  · unfold signIdx at hs0 hs1 ⊢
    omega
  · exact pymod_nonneg L (by norm_num)
  · exact pymod_lt L (by norm_num)
  · unfold signIdx degreeInSign pymod
    ring

/-- Witness for C7 at the concrete longitude `123.45`. -/
theorem sign_classification_exact_at :
    ((0 : ℚ) ≤ 123.45 ∧ (123.45 : ℚ) < 360)
    ∧ (signIdx 123.45 = ⌊(123.45 : ℚ) / 30⌋ % 12
      ∧ 0 ≤ signIdx 123.45 ∧ signIdx 123.45 ≤ 11
      ∧ 0 ≤ degreeInSign 123.45 ∧ degreeInSign 123.45 < 30
      ∧ (signIdx 123.45 : ℚ) * 30 + degreeInSign 123.45 = 123.45) :=
  ⟨⟨by norm_num, by norm_num⟩, sign_classification_exact 123.45 (by norm_num) (by norm_num)⟩

theorem planetNameGet_inj :
    ∀ p < 10, ∀ q < 10, planetNameGet p = planetNameGet q → p = q := by decide

theorem planetNameGet_not_special :
    ∀ p < 10, planetNameGet p ≠ "北交點" ∧ planetNameGet p ≠ "上升點"
      ∧ planetNameGet p ≠ "天頂" := by decide

/-- When one planet's `swe.calc_ut` call fails, the Swiss-path chart still
succeeds: each other planet whose call succeeds has its entry (with the
rounded longitude and speed), the failed planet has no entry of any kind,
and the Ascendant/Midheaven entries are appended with speed 0. -/
theorem swiss_chart_skip (calcUT : ℕ → Option (ℚ × ℚ)) (nodeCalc : Option (ℚ × ℚ))
    (houses : List ℚ) (asc mc : ℚ) (i : ℕ) (hi : i < 10) (hnone : calcUT i = none) :
    ∃ es, calculate_swiss_ephemeris_chart calcUT nodeCalc (some (houses, asc, mc)) = .ok es
      ∧ (∀ e : Entry, (planetNameGet i, e) ∉ es)
      ∧ (∀ j, j < 10 → ∀ lon sp, calcUT j = some (lon, sp) →
          ∃ e : Entry, (planetNameGet j, e) ∈ es ∧ e.longitude = pyround lon 2
            ∧ e.speed = pyround sp 4)
      ∧ (∃ e : Entry, ("上升點", e) ∈ es ∧ e.speed = 0)
      ∧ (∃ e : Entry, ("天頂", e) ∈ es ∧ e.speed = 0) := by
  refine ⟨_, rfl, ?_, ?_, ?_, ?_⟩
  · intro e hmem
    obtain ⟨hne, hne2, hne3⟩ := planetNameGet_not_special i hi
    rcases List.mem_append.mp hmem with hAB | hC
    · rcases List.mem_append.mp hAB with hA | hB
      · obtain ⟨pid, hpidmem, hf⟩ := List.mem_filterMap.mp hA
        have hpid : pid < 10 := List.mem_range.mp hpidmem
        rcases hc : calcUT pid with _ | lonsp
        · simp only [hc] at hf
          cases hf
        · obtain ⟨lon, sp⟩ := lonsp
          simp only [hc] at hf
          rcases hs : swissPlanetEntry houses lon sp with _ | e2
          · simp only [hs] at hf
            cases hf
          · simp only [hs, Option.some.injEq, Prod.mk.injEq] at hf
            have hpq : pid = i := planetNameGet_inj pid hpid i hi hf.1
            rw [hpq, hnone] at hc
            cases hc
      · rcases hnc : nodeCalc with _ | lonsp
        · simp only [hnc] at hB
          simp at hB
        · obtain ⟨lon, sp⟩ := lonsp
          simp only [hnc] at hB
          rcases hs : swissPlanetEntry houses lon sp with _ | e2
          · simp only [hs] at hB
            simp at hB
          · simp only [hs, List.mem_singleton, Prod.mk.injEq] at hB
            exact hne hB.1
    · simp only [List.mem_cons, List.not_mem_nil, or_false, Prod.mk.injEq] at hC
      rcases hC with ⟨h, _⟩ | ⟨h, _⟩
      · exact hne2 h
      · exact hne3 h
  · intro j hj lon sp hsome
    obtain ⟨e, hse, hlon, hsp, _, _⟩ := swissPlanetEntry_isSome houses lon sp
    refine ⟨e, ?_, hlon, hsp⟩
    apply List.mem_append.mpr
    left
    apply List.mem_append.mpr
    left
    apply List.mem_filterMap.mpr
    refine ⟨j, List.mem_range.mpr hj, ?_⟩
    simp only [hsome, hse]
  · exact ⟨{ longitude := pyround asc 2
             sign := signIdx asc
             sign_name := signNameGet (signIdx asc)
             house := 1
             house_name := "第一宮"
             degree_format := format_degree_minute asc
             speed := 0 },
      List.mem_append.mpr (Or.inr (List.mem_cons_self _ _)), rfl⟩
  · exact ⟨{ longitude := pyround mc 2
             sign := signIdx mc
             sign_name := signNameGet (signIdx mc)
             house := 10
             house_name := "第十宮"
             degree_format := format_degree_minute mc
             speed := 0 },
      List.mem_append.mpr (Or.inr (List.mem_cons_of_mem _ (List.mem_cons_self _ _))), rfl⟩

/-- C1, amended claim.  A single body's provider failure does not abort the
Swiss chart: every other successful body is still returned, but the failed
body is silently omitted — no per-slot error marker of any kind — and the
`/chart` endpoint reports overall status `"success"`, never `"partial"`. -/
theorem chart_partial_failure_silent (calcUT : ℕ → Option (ℚ × ℚ))
    (nodeCalc : Option (ℚ × ℚ)) (houses : List ℚ) (asc mc : ℚ) (i : ℕ)
    (hi : i < 10) (hnone : calcUT i = none) :
    ∃ es, calculate_swiss_ephemeris_chart calcUT nodeCalc (some (houses, asc, mc)) = .ok es
      ∧ (∀ e : Entry, (planetNameGet i, e) ∉ es)
      ∧ (∀ j, j < 10 → ∀ lon sp, calcUT j = some (lon, sp) →
          ∃ e : Entry, (planetNameGet j, e) ∈ es ∧ e.longitude = pyround lon 2
            ∧ e.speed = pyround sp 4)
      ∧ ∀ (fb : List Char → List Char → ℚ → ℚ → Except String (List (String × Entry)))
          (req : ChartRequest),
          responseStatus (analyze_chart true
            (fun _ _ _ _ =>
              calculate_swiss_ephemeris_chart calcUT nodeCalc (some (houses, asc, mc)))
            fb req) = "success" := by
  obtain ⟨es, hok, habs, hpres, _, _⟩ :=
    swiss_chart_skip calcUT nodeCalc houses asc mc i hi hnone
  refine ⟨es, hok, habs, hpres, ?_⟩
  intro fb req
  unfold analyze_chart
  rw [hok]
  rfl

/-- Concrete Swiss provider for the partial-failure scenario: planet 3
(`金星`) faults, every other body succeeds. -/
def c1Calc : ℕ → Option (ℚ × ℚ) := fun pid =>
  if pid = 3 then none else some (30 * (pid : ℚ) + 7, 1)

def c1Node : Option (ℚ × ℚ) := some (123, 1)

def c1Houses : List ℚ := [15, 45, 75, 105, 135, 165, 195, 225, 255, 285, 315, 345]

def c1Req : ChartRequest :=
  { date := ['2', '0', '0', '0', '0', '1', '0', '1']
    time := ['1', '2', ':', '0', '0']
    lat := 25
    lon := 121
    tz := 8 }

/-- C1, counterexample.  Forcing planet 3 (`金星`) to fault yields a chart
with no `金星` slot at all — no explicit per-slot error marker — and the
`/chart` response status is `"success"`, not `"partial"` as claimed. -/
theorem chart_failed_body_dropped :
    ∃ es, calculate_swiss_ephemeris_chart c1Calc c1Node (some (c1Houses, 15, 280)) = .ok es
      ∧ (∀ e : Entry, ("金星", e) ∉ es)
      ∧ responseStatus (analyze_chart true
          (fun _ _ _ _ =>
            calculate_swiss_ephemeris_chart c1Calc c1Node (some (c1Houses, 15, 280)))
          (fun _ _ _ _ => .error "備用失敗") c1Req) = "success"
      ∧ ("success" : String) ≠ "partial" := by
  obtain ⟨es, hok, habs, hpres, _, _⟩ :=
    swiss_chart_skip c1Calc c1Node c1Houses 15 280 3 (by norm_num) rfl
  refine ⟨es, hok, ?_, ?_, by decide⟩
  · have hname : planetNameGet 3 = "金星" := rfl
    rw [← hname]
    exact habs
  · unfold analyze_chart
    rw [hok]
    rfl

/-- Witness for C1 at the concrete faulting provider (`金星`, planet 3). -/
theorem chart_partial_failure_silent_at :
    ((3 : ℕ) < 10 ∧ c1Calc 3 = none)
    ∧ ∃ es, calculate_swiss_ephemeris_chart c1Calc c1Node (some (c1Houses, 15, 280)) = .ok es
      ∧ (∀ e : Entry, (planetNameGet 3, e) ∉ es)
      ∧ (∀ j, j < 10 → ∀ lon sp, c1Calc j = some (lon, sp) →
          ∃ e : Entry, (planetNameGet j, e) ∈ es ∧ e.longitude = pyround lon 2
            ∧ e.speed = pyround sp 4)
      ∧ ∀ (fb : List Char → List Char → ℚ → ℚ → Except String (List (String × Entry)))
          (req : ChartRequest),
          responseStatus (analyze_chart true
            (fun _ _ _ _ =>
              calculate_swiss_ephemeris_chart c1Calc c1Node (some (c1Houses, 15, 280)))
            fb req) = "success" :=
  ⟨⟨by norm_num, rfl⟩,
    chart_partial_failure_silent c1Calc c1Node c1Houses 15 280 3 (by norm_num) rfl⟩

def exceptIsOk {ε α : Type} : Except ε α → Bool := fun x =>
  match x with
  | .ok _ => true
  | .error _ => false

/-- C6, amended claim.  On the `/chart` endpoint a Swiss failure does fall
back to the approximate provider and the response is an error exactly when
the fallback fails and Swiss was unavailable or failed; but on the
`/deep_analysis` path the provider is chosen by the import-time flag alone:
when the flag is set the fallback is never consulted, and a runtime Swiss
failure becomes an error marker without any fallback attempt. -/
theorem fallback_only_on_chart_endpoint (avail : Bool)
    (swiss fb : List Char → List Char → ℚ → ℚ → Except String (List (String × Entry)))
    (req : ChartRequest) :
    (responseStatus (analyze_chart avail swiss fb req) = "error"
      ↔ (exceptIsOk (fb (cleanDate req.date) req.time req.lat req.lon) = false
          ∧ (avail = false
            ∨ exceptIsOk (swiss (cleanDate req.date) req.time req.lat req.lon) = false)))
    ∧ (∀ sw fb1 fb2 : Except String (List (String × Entry)),
        deepAnalysisAstro true sw fb1 = deepAnalysisAstro true sw fb2)
    ∧ (∀ (msg : String) (c : List (String × Entry)),
        deepAnalysisAstro true (.error msg) (.ok c) = .errorMarker msg) := by
  refine ⟨?_, ?_, ?_⟩
  · unfold analyze_chart
    cases avail with
    | false =>
      cases hfb : fb (cleanDate req.date) req.time req.lat req.lon with
      | error m => simp [responseStatus, exceptIsOk, hfb]
      | ok c => simp [responseStatus, exceptIsOk, hfb]
    | true =>
      cases hsw : swiss (cleanDate req.date) req.time req.lat req.lon with
      | error m =>
        cases hfb : fb (cleanDate req.date) req.time req.lat req.lon with
        | error m2 => simp [responseStatus, exceptIsOk, hsw, hfb]
        | ok c => simp [responseStatus, exceptIsOk, hsw, hfb]
      | ok c => simp [responseStatus, exceptIsOk, hsw]
  · intro sw fb1 fb2
    rfl
  · intro msg c
    rfl

/-- C6, counterexample.  On the `/deep_analysis` path with Swiss Ephemeris
available, a runtime Swiss failure yields an error marker even though the
approximate provider would have succeeded: the chart is not computed by
falling back, refuting the claim for this chart-producing path. -/
theorem deep_analysis_no_fallback :
    deepAnalysisAstro true (.error "模擬故障") (.ok []) = .errorMarker "模擬故障"
    ∧ ∀ c : List (String × Entry),
        deepAnalysisAstro true (.error "模擬故障") (.ok []) ≠ .chart c := by
  refine ⟨rfl, ?_⟩
  intro c h
  rw [show deepAnalysisAstro true (.error "模擬故障") (.ok [])
      = AstroSlot.errorMarker "模擬故障" from rfl] at h
  cases h

/-- C9.  The `/chart` endpoint never reads `req.tz`: two requests that agree
on date, time, latitude and longitude produce identical responses whatever
their `tz` fields, for every availability flag and every pair of
providers. -/
theorem tz_field_has_no_effect (avail : Bool)
    (swiss fb : List Char → List Char → ℚ → ℚ → Except String (List (String × Entry)))
    (r1 r2 : ChartRequest) (hdate : r1.date = r2.date) (htime : r1.time = r2.time)
    (hlat : r1.lat = r2.lat) (hlon : r1.lon = r2.lon) :
    analyze_chart avail swiss fb r1 = analyze_chart avail swiss fb r2 := by
  unfold analyze_chart
  rw [hdate, htime, hlat, hlon]

def c9Req1 : ChartRequest :=
  { date := ['2', '0', '0', '0', '0', '1', '0', '1']
    time := ['1', '2', ':', '0', '0']
    lat := 25
    lon := 121
    tz := 8 }

def c9Req2 : ChartRequest :=
  { date := ['2', '0', '0', '0', '0', '1', '0', '1']
    time := ['1', '2', ':', '0', '0']
    lat := 25
    lon := 121
    tz := 0 }

/-- Witness for C9: two concrete requests identical except `tz = 8` versus
`tz = 0` receive identical responses. -/
theorem tz_field_has_no_effect_at :
    (c9Req1.date = c9Req2.date ∧ c9Req1.time = c9Req2.time
      ∧ c9Req1.lat = c9Req2.lat ∧ c9Req1.lon = c9Req2.lon ∧ c9Req1.tz ≠ c9Req2.tz)
    ∧ analyze_chart true (fun _ _ _ _ => .error "不可用") (fun _ _ _ _ => .ok []) c9Req1
      = analyze_chart true (fun _ _ _ _ => .error "不可用") (fun _ _ _ _ => .ok []) c9Req2 :=
  ⟨⟨rfl, rfl, rfl, rfl, by decide⟩,
    tz_field_has_no_effect true _ _ c9Req1 c9Req2 rfl rfl rfl rfl⟩

/-- C10, amended claim.  `parse_time_string` is total and never raises: a
cleaned input with no colon that is neither a 4-digit string nor a string
of at most two digits yields the default `(12, 0)` (as does any internal
`int` failure); but a colon anywhere makes it return the first two
colon-separated fields parsed as integers, unchecked — so inputs such as
`"1:2:3"` do not fall back to the default. -/
theorem time_string_default (s : List Char)
    (hcolon : ':' ∉ (pystrip s).filter (fun c => c ≠ ' '))
    (h4 : ¬(((pystrip s).filter (fun c => c ≠ ' ')).length = 4
      ∧ pyIsDigitStr ((pystrip s).filter (fun c => c ≠ ' ')) = true))
    (h2 : ¬(((pystrip s).filter (fun c => c ≠ ' ')).length ≤ 2
      ∧ pyIsDigitStr ((pystrip s).filter (fun c => c ≠ ' ')) = true)) :
    parse_time_string s = (12, 0) := by
  unfold parse_time_string
  rw [if_neg hcolon, if_neg h4, if_neg h2]

/-- Witness for C10 at the concrete non-matching input `"abc"`. -/
theorem time_string_default_at :
    (':' ∉ (pystrip ['a', 'b', 'c']).filter (fun c => c ≠ ' ')
      ∧ ¬(((pystrip ['a', 'b', 'c']).filter (fun c => c ≠ ' ')).length = 4
        ∧ pyIsDigitStr ((pystrip ['a', 'b', 'c']).filter (fun c => c ≠ ' ')) = true)
      ∧ ¬(((pystrip ['a', 'b', 'c']).filter (fun c => c ≠ ' ')).length ≤ 2
        ∧ pyIsDigitStr ((pystrip ['a', 'b', 'c']).filter (fun c => c ≠ ' ')) = true))
    ∧ parse_time_string ['a', 'b', 'c'] = (12, 0) :=
  ⟨⟨by decide, by decide, by decide⟩,
    time_string_default ['a', 'b', 'c'] (by decide) (by decide) (by decide)⟩

/-- C10, counterexample.  `"1:2:3"` matches none of the accepted patterns
of the claim, yet `parse_time_string` returns `(1, 2)`, not the default
`(12, 0)`. -/
theorem time_string_three_fields :
    parse_time_string ['1', ':', '2', ':', '3'] = (1, 2)
    ∧ parse_time_string ['1', ':', '2', ':', '3'] ≠ (12, 0) := by
  constructor
  · decide
  · decide

/-- C4, amended claim.  The approximate propagator does not iterate at all:
it computes the eccentric anomaly in a single step as
`E = M + e·degrees(sin(radians M))`, with no tolerance check, no iteration
count and no `ConvergenceWarning`.  For `e = 0` this still gives `E = M`
exactly, but for `e = 0.2`, `M = 45°` every solution of Kepler's equation
lies at least half a degree away from the computed value. -/
theorem kepler_one_step_only :
    (∀ M : ℝ, keplerEDeg 0 M = M)
    ∧ ¬ ∃ E : ℝ, KeplerEqDeg 0.2 45 E ∧ |keplerEDeg 0.2 45 - E| < 1 / 2 := by
  constructor
  · intro M
    unfold keplerEDeg
    ring
  · rintro ⟨E, hE, hlt⟩
    have := kepler_code_far E hE
    linarith

/-- C4, counterexample.  At `e = 0.2`, `M = 45°` there is no solution of
Kepler's equation within `1e-6` degrees of the value the code returns (the
true deviation exceeds half a degree), refuting the claimed Newton-iteration
accuracy. -/
theorem kepler_accuracy_refuted :
    ¬ ∃ E : ℝ, KeplerEqDeg 0.2 45 E ∧ |keplerEDeg 0.2 45 - E| < 1 / 1000000 := by
  rintro ⟨E, hE, hlt⟩
  have := kepler_code_far E hE
  linarith

/-- The cusp list of the spec's wraparound example: `cusp[0] = 10°`,
`cusp[11] = 350°`. -/
def specCusps : List ℚ :=
  [10, 40, 70, 100, 130, 160, 190, 220, 250, 280, 310, 350]

theorem specCusps_at_355 : get_planet_house 355 specCusps = 12 := by
  unfold get_planet_house
  rw [pymod_eq_self (by norm_num) (by norm_num) (by norm_num)]
  decide

theorem specCusps_at_5 : get_planet_house 5 specCusps = 12 := by
  unfold get_planet_house
  rw [pymod_eq_self (by norm_num) (by norm_num) (by norm_num)]
  decide

/-- C5, counterexample.  With `cusp[11] = 350°` and `cusp[0] = 10°`,
longitude 355° is assigned house 12 as claimed, but longitude 5° is also
assigned house 12 (it lies in the wraparound interval `[350°, 10°)`), not
house 1 as the claim states. -/
theorem wraparound_house_example :
    get_planet_house 355 specCusps = 12
    ∧ get_planet_house 5 specCusps = 12
    ∧ get_planet_house 5 specCusps ≠ 1 := by
  refine ⟨specCusps_at_355, specCusps_at_5, ?_⟩
  rw [specCusps_at_5]
  decide

/-- C5, amended claim.  For every circularly ordered 12-cusp list (cusps in
`[0,360)`, adjacent cusps distinct, exactly one descent) and every longitude
in `[0,360)`, exactly one house interval matches — the occupied interval
being `[cusp i, cusp (i+1))` with the wraparound test when the pair
descends — and `get_planet_house` returns that unique house in `[1,12]`;
in the spec's example both 355° and 5° fall in house 12. -/
theorem house_assignment_total_unique (houses : List ℚ) (L : ℚ)
    (hlen : houses.length = 12)
    (hrange : ∀ i, i < 12 → 0 ≤ houses.getD i 0 ∧ houses.getD i 0 < 360)
    (hdist : ∀ i, i < 12 → cusp houses (i + 1) ≠ cusp houses i)
    (hdesc : descCount houses 12 = 1)
    (hL0 : 0 ≤ L) (hL1 : L < 360) :
    ((∃! hn : ℕ, 1 ≤ hn ∧ hn ≤ 12 ∧ matchesHouse L houses hn)
      ∧ 1 ≤ get_planet_house L houses ∧ get_planet_house L houses ≤ 12
      ∧ matchesHouse L houses (get_planet_house L houses))
    ∧ get_planet_house 355 specCusps = 12 ∧ get_planet_house 5 specCusps = 12 :=
  ⟨house_assignment_unique houses L hlen hrange hdist hdesc hL0 hL1,
    specCusps_at_355, specCusps_at_5⟩

/-- Witness for C5 at the spec's cusp list and longitude 123°. -/
theorem house_assignment_total_unique_at :
    (specCusps.length = 12
      ∧ (∀ i, i < 12 → 0 ≤ specCusps.getD i 0 ∧ specCusps.getD i 0 < 360)
      ∧ (∀ i, i < 12 → cusp specCusps (i + 1) ≠ cusp specCusps i)
      ∧ descCount specCusps 12 = 1 ∧ (0 : ℚ) ≤ 123 ∧ (123 : ℚ) < 360)
    ∧ (((∃! hn : ℕ, 1 ≤ hn ∧ hn ≤ 12 ∧ matchesHouse 123 specCusps hn)
      ∧ 1 ≤ get_planet_house 123 specCusps ∧ get_planet_house 123 specCusps ≤ 12
      ∧ matchesHouse 123 specCusps (get_planet_house 123 specCusps))
      ∧ get_planet_house 355 specCusps = 12 ∧ get_planet_house 5 specCusps = 12) :=
  ⟨⟨by decide, by decide, by decide, by decide, by decide, by decide⟩,
    house_assignment_total_unique specCusps 123 (by decide) (by decide) (by decide)
      (by decide) (by decide) (by decide)⟩

end Bazi
